import Mathlib

/-!
# jsScraper — verification of the asset-collection and crawl engine

Shallow embedding of `src/jsScraper.py`: the filter policy (regex-list URL and
body classifiers), identity and naming (SHA-256 content fingerprints, URL
parsing/normalization, filename construction), the per-response and per-inline
collection steps with their shared dedup state, and the recursive bounded
link crawler.  External collaborators (Playwright, the file system, the DOM)
are modelled at their interfaces: a network response is a record carrying its
URL, resource kind, and the outcome of reading its body (`none` = the read
raised); persisting a file appends to a `saved` list; the link structure of
the web is a function from page URL to the absolute hrefs found on it.
Byte strings are `List Nat` (each entry < 256).
-/

/-! ## SHA-256 over byte lists (models Python `hashlib.sha256(...)`)

Standard FIPS 180-4 SHA-256, operating on `Nat` words reduced mod 2^32.
The compression state is a record of the eight working variables. -/

/-- Reduce to a 32-bit word. -/
def w32 (n : Nat) : Nat := n % 4294967296

/-- Right rotation of a 32-bit word by `n`. -/
def rotr (n x : Nat) : Nat := (x / 2 ^ n + x % 2 ^ n * 2 ^ (32 - n)) % 4294967296

/-- SHA-256 small sigma 0. -/
def ssig0 (x : Nat) : Nat := rotr 7 x ^^^ rotr 18 x ^^^ x / 2 ^ 3

/-- SHA-256 small sigma 1. -/
def ssig1 (x : Nat) : Nat := rotr 17 x ^^^ rotr 19 x ^^^ x / 2 ^ 10

/-- SHA-256 big sigma 0. -/
def bsig0 (x : Nat) : Nat := rotr 2 x ^^^ rotr 13 x ^^^ rotr 22 x

/-- SHA-256 big sigma 1. -/
def bsig1 (x : Nat) : Nat := rotr 6 x ^^^ rotr 11 x ^^^ rotr 25 x

/-- SHA-256 choice function (32-bit complement via xor with the all-ones mask). -/
def chF (e f g : Nat) : Nat := (e &&& f) ^^^ ((e ^^^ 4294967295) &&& g)

/-- SHA-256 majority function. -/
def majF (a b c : Nat) : Nat := (a &&& b) ^^^ (a &&& c) ^^^ (b &&& c)

/-- The 64 SHA-256 round constants. -/
def K256 : List Nat :=
  [1116352408, 1899447441, 3049323471, 3921009573, 961987163,
   1508970993, 2453635748, 2870763221, 3624381080, 310598401,
   607225278, 1426881987, 1925078388, 2162078206, 2614888103,
   3248222580, 3835390401, 4022224774, 264347078, 604807628,
   770255983, 1249150122, 1555081692, 1996064986, 2554220882,
   2821834349, 2952996808, 3210313671, 3336571891, 3584528711,
   113926993, 338241895, 666307205, 773529912, 1294757372,
   1396182291, 1695183700, 1986661051, 2177026350, 2456956037,
   2730485921, 2820302411, 3259730800, 3345764771, 3516065817,
   3600352804, 4094571909, 275423344, 430227734, 506948616,
   659060556, 883997877, 958139571, 1322822218, 1537002063,
   1747873779, 1955562222, 2024104815, 2227730452, 2361852424,
   2428436474, 2756734187, 3204031479, 3329325298]

/-- The eight SHA-256 working variables. -/
structure Hash8 where
  a : Nat
  b : Nat
  c : Nat
  d : Nat
  e : Nat
  f : Nat
  g : Nat
  h : Nat
deriving DecidableEq

/-- SHA-256 initial hash value. -/
def initH : Hash8 :=
  ⟨1779033703, 3144134277, 1013904242, 2773480762,
   1359893119, 2600822924, 528734635, 1541459225⟩

/-- One SHA-256 compression round for round constant `k` and schedule word `w`. -/
def compressRound (st : Hash8) (kw : Nat × Nat) : Hash8 :=
  let t1 := w32 (st.h + bsig1 st.e + chF st.e st.f st.g + kw.1 + kw.2)
  let t2 := w32 (bsig0 st.a + majF st.a st.b st.c)
  ⟨w32 (t1 + t2), st.a, st.b, st.c, w32 (st.d + t1), st.e, st.f, st.g⟩

/-- Extend the message schedule by one word (the standard recurrence on the
last 16 words). -/
def extendStep (w : List Nat) : List Nat :=
  w ++ [w32 (ssig1 (w.getD (w.length - 2) 0) + w.getD (w.length - 7) 0 +
             ssig0 (w.getD (w.length - 15) 0) + w.getD (w.length - 16) 0)]

/-- Expand a 16-word block to the 64-word message schedule. -/
def msgSchedule (ws : List Nat) : List Nat :=
  (List.range 48).foldl (fun w _ => extendStep w) ws

/-- Compress one 16-word block into the running hash value. -/
def compressBlock (h0 : Hash8) (block : List Nat) : Hash8 :=
  let st := (List.zip K256 (msgSchedule block)).foldl compressRound h0
  ⟨w32 (h0.a + st.a), w32 (h0.b + st.b), w32 (h0.c + st.c), w32 (h0.d + st.d),
   w32 (h0.e + st.e), w32 (h0.f + st.f), w32 (h0.g + st.g), w32 (h0.h + st.h)⟩

/-- Big-endian bytes of a 32-bit word. -/
def be4 (x : Nat) : List Nat :=
  [x / 16777216 % 256, x / 65536 % 256, x / 256 % 256, x % 256]

/-- Big-endian bytes of a 64-bit length field. -/
def be8 (x : Nat) : List Nat :=
  [x / 72057594037927936 % 256, x / 281474976710656 % 256, x / 1099511627776 % 256,
   x / 4294967296 % 256, x / 16777216 % 256, x / 65536 % 256, x / 256 % 256, x % 256]

/-- SHA-256 padding for a message of `len` bytes: 0x80, zeros to 56 mod 64,
then the bit length as 8 big-endian bytes. -/
def padTail (len : Nat) : List Nat :=
  128 :: List.replicate ((64 + 56 - (len + 1) % 64) % 64) 0 ++ be8 (8 * len)

/-- Pack bytes into big-endian 32-bit words, four at a time. -/
def toWords : List Nat → List Nat
  | b0 :: b1 :: b2 :: b3 :: rest => (b0 * 16777216 + b1 * 65536 + b2 * 256 + b3) :: toWords rest
  | _ => []

/-- Split a word list into 16-word blocks (the padded message fills them exactly). -/
def chunk16 : List Nat → List (List Nat)
  | w0 :: w1 :: w2 :: w3 :: w4 :: w5 :: w6 :: w7 ::
    w8 :: w9 :: w10 :: w11 :: w12 :: w13 :: w14 :: w15 :: rest =>
      [w0, w1, w2, w3, w4, w5, w6, w7, w8, w9, w10, w11, w12, w13, w14, w15] :: chunk16 rest
  | _ => []

/-- SHA-256 digest (32 bytes) of a byte list. -/
def sha256 (msg : List Nat) : List Nat :=
  let blocks := chunk16 (toWords (msg ++ padTail msg.length))
  let hv := blocks.foldl compressBlock initH
  be4 hv.a ++ be4 hv.b ++ be4 hv.c ++ be4 hv.d ++ be4 hv.e ++ be4 hv.f ++ be4 hv.g ++ be4 hv.h

/-- The lowercase hex alphabet. -/
def hexAlphabet : List Char := "0123456789abcdef".data

/-- Hex character of a nibble. -/
def hexChar (n : Nat) : Char := hexAlphabet.getD n '0'

/-- Two hex characters of a byte. -/
def hexOfBytes (l : List Nat) : List Char :=
  l.foldr (fun b acc => hexChar (b / 16 % 16) :: hexChar (b % 16) :: acc) []

/-- Models Python `hashlib.sha256(content).hexdigest()`: the 64-character
lowercase hex encoding of the SHA-256 digest. -/
def hexdigest (content : List Nat) : String :=
  String.mk (hexOfBytes (sha256 content))

/-! ## Filter policy (models the `re` patterns and `is_interesting_*`)

The source's pattern lists are Python *raw* strings, so `\\.` there denotes
the two regex atoms "literal backslash" then "any character", `\/` denotes a
literal `/`, `(?:...)` a group, `?` an optional, `|` an alternative and `$`
the end-of-text anchor.  The features used by the two lists are exactly:
literal characters, `.`, `(?:...)?`, `(?:a|b)`, and `$` — no repetition — so
the matcher below is a total structural recursion.  `re.search` semantics:
a match may start at any position. -/

/-- Regex abstract syntax: exactly the constructs the source's patterns use. -/
inductive Regex where
  | emp : Regex
  | chr : Char → Regex
  | anyc : Regex
  | seq : Regex → Regex → Regex
  | alt : Regex → Regex → Regex
  | opt : Regex → Regex
  | eos : Regex

/-- Continuation-passing matcher: `mtch r s k` is true iff some split of `s`
lets `r` consume a (leftmost-anchored) portion and `k` accept the rest.
Python's `.` matches any character except a newline; `$` matches at the end
of the text or just before a final newline. -/
def mtch : Regex → List Char → (List Char → Bool) → Bool
  | Regex.emp, s, k => k s
  | Regex.chr c, s, k =>
      match s with
      | [] => false
      | x :: rest => x = c && k rest
  | Regex.anyc, s, k =>
      match s with
      | [] => false
      | x :: rest => x ≠ '\n' && k rest
  | Regex.seq a b, s, k => mtch a s (fun s2 => mtch b s2 k)
  | Regex.alt a b, s, k => mtch a s k || mtch b s k
  | Regex.opt a, s, k => mtch a s k || k s
  | Regex.eos, s, k => (s.isEmpty || s = ['\n']) && k s

/-- Models `re.search`: try a match starting at every position. -/
def research (r : Regex) : List Char → Bool
  | [] => mtch r [] (fun _ => true)
  | c :: cs => mtch r (c :: cs) (fun _ => true) || research r cs

/-- Sequence a list of regexes. -/
def rseq (rs : List Regex) : Regex := rs.foldr Regex.seq Regex.emp

/-- A literal run of characters. -/
def rstr (s : String) : Regex := rseq (s.data.map Regex.chr)

/-- The two regex atoms written as `\\.` inside the source's raw pattern
strings: a literal backslash, then any character. -/
def bsDot : Regex := Regex.seq (Regex.chr '\\') Regex.anyc

/-- Ordered alternation of a list of regexes (empty list matches nothing,
unused here). -/
def ralt : List Regex → Regex
  | [] => Regex.chr '\n'
  | [r] => r
  | r :: rest => Regex.alt r (ralt rest)

/-- `UNINTERESTING_JS_STRICT`, pattern by pattern in source order. -/
def UNINTERESTING_JS_STRICT : List Regex :=
  [rseq [rstr "segment", bsDot, rstr "com"],
   rseq [rstr "google-analytics", bsDot, rstr "com"],
   rseq [rstr "googletagmanager", bsDot, rstr "com"],
   rseq [rstr "facebook", bsDot, rstr "net"],
   rseq [rstr "twitter", bsDot, rstr "com"],
   rseq [rstr "linkedin", bsDot, rstr "com"],
   rseq [rstr "hotjar", bsDot, rstr "com"],
   rseq [rstr "jquery", Regex.opt (rseq [bsDot, rstr "min"]), bsDot, rstr "js"],
   rseq [rstr "bootstrap", Regex.opt (rseq [bsDot, rstr "min"]), bsDot, rstr "js"],
   rseq [rstr "cdn", bsDot, rstr "jsdelivr", bsDot, rstr "net"],
   rseq [rstr "cdn", bsDot, rstr "cloudflare", bsDot, rstr "com"],
   rseq [rstr "polyfill", bsDot, rstr "io"],
   rseq [rstr "ad", Regex.opt (Regex.chr 's'), bsDot],
   rseq [rstr "track", Regex.opt (rstr "ing"), bsDot, rstr "js"],
   rseq [rstr "analytics", bsDot, rstr "js"],
   rseq [rstr "gtm", bsDot, rstr "js"],
   rseq [rstr "optimizely", bsDot, rstr "com"],
   rseq [bsDot, rstr "min", bsDot, rstr "js", Regex.eos],
   rstr "webpack", rstr "react", rstr "vue", rstr "angular",
   rstr "/vendor/", rstr "/plugins/", rstr "/docs/", rstr "/themes/", rstr "/dist/",
   rseq [bsDot,
         ralt [rstr "woff", rstr "woff2", rstr "ttf", rstr "ttc", rstr "otf",
               rstr "eot", rstr "svg", rstr "png", rstr "jpg", rstr "js"],
         Regex.eos]]

/-- `UNINTERESTING_JS_RELAXED`, pattern by pattern in source order. -/
def UNINTERESTING_JS_RELAXED : List Regex :=
  [rseq [rstr "segment", bsDot, rstr "com"],
   rseq [rstr "google-analytics", bsDot, rstr "com"],
   rstr "googletagmanager",
   rseq [rstr "facebook", bsDot, rstr "com"],
   rseq [rstr "twitter", bsDot, rstr "com"],
   rseq [rstr "linkedin", bsDot, rstr "com"],
   Regex.alt (rstr "hotspot") (rstr "hotjar"),
   rseq [rstr "jquery",
         Regex.alt (rseq [bsDot, rstr "com", Regex.eos]) (rseq [bsDot, rstr "js"])],
   rseq [rstr "bootstrap", bsDot, rstr "js"],
   rseq [rstr "cdn", bsDot, rstr "js", bsDot],
   rseq [rstr "cloudflare", bsDot, rstr "com"],
   rseq [rstr "polyfill", bsDot, rstr "io"],
   rseq [rstr "ad", Regex.opt (Regex.chr 's'), bsDot],
   rseq [rstr "track", Regex.opt (rstr "ing"), bsDot, rstr "js"],
   rseq [rstr "analytics", bsDot, rstr "js"],
   rseq [rstr "gtm", bsDot, rstr "js"],
   rseq [rstr "optimizely", bsDot, rstr "com"],
   rstr "webpack", rstr "react", rstr "vue", rstr "angular",
   rseq [bsDot,
         ralt [rstr "woff", rstr "woff2", rstr "ttf", rstr "eot", rstr "svg",
               rstr "png", rstr "jpg"],
         bsDot, rstr "js", Regex.eos]]

/-- ASCII lowercase of a character (Python `str.lower()` restricted to the
ASCII range; all text the program matches and compares is ASCII). -/
def lowerChar (c : Char) : Char :=
  if 65 ≤ c.toNat ∧ c.toNat ≤ 90 then Char.ofNat (c.toNat + 32) else c

/-- ASCII lowercase of a string. -/
def lowerStr (s : String) : String := String.mk (s.data.map lowerChar)

/-- Models `is_interesting_js`: true iff no pattern matches the lowercased URL. -/
def is_interesting_js (url : String) (uninteresting_patterns : List Regex) : Bool :=
  !(uninteresting_patterns.any (fun p => research p (lowerStr url).data))

/-- Models `is_interesting_inline_script`: same test on lowercased content. -/
def is_interesting_inline_script (content : String) (uninteresting_patterns : List Regex) : Bool :=
  !(uninteresting_patterns.any (fun p => research p (lowerStr content).data))

/-! ## Identity and naming (models `urllib.parse` use, `get_domain_from_url`,
`sanitize_filename_part`, `build_filename`, `normalize_url`)

`urlparse`/`urlunparse` are the CPython algorithms restricted to the URL
shapes the program handles: no IPv6 bracket hosts and no `;params` path
segments (none of the program's inputs carry them, so `params` is always
empty and `urlparse` coincides with `urlsplit`). -/

/-- The five components `urlparse` returns (with `params` always empty). -/
structure ParseResult where
  scheme : String
  netloc : String
  path : String
  query : String
  fragment : String
deriving DecidableEq

/-- Valid scheme: first char alphabetic, rest alphanumeric or `+`, `-`, `.`
(the CPython check). -/
def isSchemeChars : List Char → Bool
  | [] => false
  | c :: rest =>
      c.isAlpha && rest.all (fun x => x.isAlphanum || x = '+' || x = '-' || x = '.')

/-- Split characters up to the first occurrence of any of `stops`. -/
def splitUntil (stops : List Char) : List Char → List Char × List Char
  | [] => ([], [])
  | c :: rest =>
      if stops.contains c then ([], c :: rest)
      else
        let p := splitUntil stops rest
        (c :: p.1, p.2)

/-- Models `urllib.parse.urlparse` (CPython `urlsplit`: scheme, then `//netloc`,
then fragment, then query; what remains is the path). -/
def urlparse (url : String) : ParseResult :=
  let cs := url.data
  let schemeSplit :=
    let p := splitUntil [':'] cs
    if p.2 ≠ [] ∧ isSchemeChars p.1 then ((p.1.map lowerChar), p.2.drop 1)
    else ([], cs)
  let scheme := schemeSplit.1
  let rest := schemeSplit.2
  let netlocSplit :=
    match rest with
    | '/' :: '/' :: tail =>
        let p := splitUntil ['/', '?', '#'] tail
        (p.1, p.2)
    | _ => ([], rest)
  let netloc := netlocSplit.1
  let rest2 := netlocSplit.2
  let fragSplit := splitUntil ['#'] rest2
  let fragment := if fragSplit.2 = [] then [] else fragSplit.2.drop 1
  let querySplit := splitUntil ['?'] fragSplit.1
  let query := if querySplit.2 = [] then [] else querySplit.2.drop 1
  ⟨String.mk scheme, String.mk netloc, String.mk querySplit.1,
   String.mk query, String.mk fragment⟩

/-- The schemes CPython treats as using a network location
(`urllib.parse.uses_netloc`, Python 3.11). -/
def uses_netloc : List String :=
  ["", "ftp", "http", "gopher", "nntp", "telnet", "imap", "wais", "file", "mms",
   "https", "shttp", "snews", "prospero", "rtsp", "rtsps", "rtspu", "rsync",
   "svn", "svn+ssh", "sftp", "nfs", "git", "git+ssh", "ws", "wss"]

/-- Models `urllib.parse.urlunparse` on a five-tuple with empty params
(CPython 3.11 `urlunsplit`). -/
def urlunparse (p : ParseResult) : String :=
  let url1 :=
    if p.netloc ≠ "" ∨
       (p.scheme ≠ "" ∧ uses_netloc.contains p.scheme ∧ p.path.data.take 2 ≠ ['/', '/']) then
      "//" ++ p.netloc ++
        (if p.path ≠ "" ∧ p.path.data.take 1 ≠ ['/'] then "/" ++ p.path else p.path)
    else p.path
  let url2 := if p.scheme ≠ "" then p.scheme ++ ":" ++ url1 else url1
  let url3 := if p.query ≠ "" then url2 ++ "?" ++ p.query else url2
  if p.fragment ≠ "" then url3 ++ "#" ++ p.fragment else url3

/-- Models `get_domain_from_url`: `(netloc or path).lower()`. -/
def get_domain_from_url (url : String) : String :=
  let parsed := urlparse url
  lowerStr (if parsed.netloc ≠ "" then parsed.netloc else parsed.path)

/-- The characters the source's sanitizer replaces: `[<>:"/\\|?*']`. -/
def forbiddenFilenameChars : List Char :=
  ['<', '>', ':', '"', '/', '\\', '|', '?', '*', '\'']

/-- Collapse adjacent duplicate underscores (the effect of `re.sub(r'_+', '_', s)`). -/
def collapseUnders : List Char → List Char
  | [] => []
  | [c] => [c]
  | c1 :: c2 :: rest =>
      if c1 = '_' ∧ c2 = '_' then collapseUnders (c2 :: rest)
      else c1 :: collapseUnders (c2 :: rest)

/-- Drop every leading and trailing underscore (Python `.strip('_')`). -/
def stripUnders (l : List Char) : List Char :=
  ((l.dropWhile (fun c => c = '_')).reverse.dropWhile (fun c => c = '_')).reverse

/-- Models `sanitize_filename_part`: replace forbidden characters with `_`,
collapse runs of `_`, strip leading/trailing `_`. -/
def sanitize_filename_part (text : String) : String :=
  String.mk (stripUnders (collapseUnders
    (text.data.map (fun c => if forbiddenFilenameChars.contains c then '_' else c))))

/-- Python `s[:8]` on a string. -/
def strSlice8 (s : String) : String := String.mk (s.data.take 8)

/-- Python `path.rstrip('/')`: drop all trailing slashes. -/
def rstripSlash (l : List Char) : List Char :=
  (l.reverse.dropWhile (fun c => c = '/')).reverse

/-- Python `path.lstrip('/')`: drop all leading slashes. -/
def lstripSlash (l : List Char) : List Char :=
  l.dropWhile (fun c => c = '/')

/-- Models `build_filename`: sanitized host, sanitized path without a trailing
`.js` extension, the first 8 hex digest characters, joined with `_` and ending
in `.js`. -/
def build_filename (url : String) (content : List Nat) : String :=
  let parsed := urlparse url
  let host := sanitize_filename_part parsed.netloc
  let path0 := lstripSlash parsed.path.data
  let path1 := if path0.reverse.take 3 = ['s', 'j', '.'] then path0.dropLast.dropLast.dropLast else path0
  let path := sanitize_filename_part (String.mk path1)
  host ++ ("_" ++ (path ++ ("_" ++ (strSlice8 (hexdigest content) ++ ".js"))))

/-- Models the nested `normalize_url`: lowercase scheme and netloc, strip one
leading `www.`, strip trailing path slashes, drop query and fragment. -/
def normalize_url (url : String) : String :=
  let parsed := urlparse url
  let netloc0 := (lowerStr parsed.netloc).data
  let netloc := if netloc0.take 4 = ['w', 'w', 'w', '.'] then netloc0.drop 4 else netloc0
  urlunparse ⟨lowerStr parsed.scheme, String.mk netloc,
              String.mk (rstripSlash parsed.path.data), "", ""⟩

/-- UTF-8 encoding of one character (models Python `str.encode('utf-8')`). -/
def utf8EncodeChar (c : Char) : List Nat :=
  let n := c.toNat
  if n < 128 then [n]
  else if n < 2048 then [192 + n / 64, 128 + n % 64]
  else if n < 65536 then [224 + n / 4096, 128 + n / 64 % 64, 128 + n % 64]
  else [240 + n / 262144, 128 + n / 4096 % 64, 128 + n / 64 % 64, 128 + n % 64]

/-- UTF-8 encoding of a string as a byte list. -/
def utf8Encode (s : String) : List Nat :=
  s.data.foldr (fun c acc => utf8EncodeChar c ++ acc) []

/-! ## Collection ledger and asset collector

One session's shared mutable state: the seen-hash set (`hash_set`), the three
skip counters (`skipped_counters['small' | 'duplicate' | 'uninteresting']`),
the `errors` list, and — standing in for the output directory — the ordered
list of persisted files as (filename, bytes) pairs.  The Playwright event
loop is single-threaded and `on_response` has no await between its dedup
check and insert, so a session is faithfully a sequential fold of the handler
over the delivered events. -/

/-- The session configuration the collector closures capture. -/
structure Config where
  domain : String
  patterns : List Regex
  include_cross_origin : Bool
  min_size : Int

/-- The shared session state. -/
structure SessionState where
  hash_set : List String
  small : Nat
  duplicate : Nat
  uninteresting : Nat
  errors : List String
  saved : List (String × List Nat)
deriving DecidableEq

/-- The state at session start: empty set, zero counters, no errors, no files. -/
def init_state : SessionState := ⟨[], 0, 0, 0, [], []⟩

/-- One completed network response as the browsing capability delivers it:
its URL, its resource kind, and the outcome of `await response.body()` —
`none` means the body read raised. -/
structure Response where
  url : String
  resource_type : String
  body : Option (List Nat)
deriving DecidableEq

/-- Models the `on_response` handler in `collect_js_urls`, line for line:
resource-kind gate, origin/filter gate, then inside the `try`: body read
(the `except` clause only logs, leaving the state unchanged), size floor,
dedup check-and-insert, persist. -/
def on_response (cfg : Config) (st : SessionState) (r : Response) : SessionState :=
  if ["script", "fetch", "xhr"].contains r.resource_type then
    let url_domain := get_domain_from_url r.url
    if (cfg.include_cross_origin || url_domain == cfg.domain)
       && is_interesting_js r.url cfg.patterns then
      match r.body with
      | none => st
      | some content =>
        if (content.length : Int) < cfg.min_size then
          { st with small := st.small + 1 }
        else
          let content_hash := hexdigest content
          if st.hash_set.contains content_hash then
            { st with duplicate := st.duplicate + 1 }
          else
            { st with hash_set := content_hash :: st.hash_set,
                      saved := st.saved ++ [(build_filename r.url content, content)] }
    else st
  else st

/-- The inline filename the source interpolates:
`f"{domain}_inline_{content_hash[:8]}.js"` (note: `domain` is used raw,
not sanitized). -/
def inline_filename (domain : String) (content_hash : String) : String :=
  domain ++ ("_inline_" ++ (strSlice8 content_hash ++ ".js"))

/-- Models one iteration of the loop in `process_inline_scripts`: body filter,
size floor on the UTF-8 bytes, dedup check-and-insert, persist under the
inline filename. -/
def inline_step (cfg : Config) (st : SessionState) (script : String) : SessionState :=
  if !(is_interesting_inline_script script cfg.patterns) then
    { st with uninteresting := st.uninteresting + 1 }
  else
    let content := utf8Encode script
    if (content.length : Int) < cfg.min_size then
      { st with small := st.small + 1 }
    else
      let content_hash := hexdigest content
      if st.hash_set.contains content_hash then
        { st with duplicate := st.duplicate + 1 }
      else
        { st with hash_set := content_hash :: st.hash_set,
                  saved := st.saved ++ [(inline_filename cfg.domain content_hash, content)] }

/-- Models `process_inline_scripts`: the loop over the page's inline scripts. -/
def process_inline_scripts (cfg : Config) (st : SessionState) (scripts : List String) : SessionState :=
  scripts.foldl (inline_step cfg) st

/-- One candidate-asset event of a session: a delivered network response
(from any page's collector) or an inline script from the DOM snapshot. -/
inductive Event where
  | response : Response → Event
  | inl_script : String → Event

/-- Dispatch one event to its handler. -/
def session_step (cfg : Config) (st : SessionState) : Event → SessionState
  | Event.response r => on_response cfg st r
  | Event.inl_script s => inline_step cfg st s

/-- A whole session: fold the handlers over the delivered events in order. -/
def run_session (cfg : Config) (events : List Event) (st : SessionState) : SessionState :=
  events.foldl (session_step cfg) st

/-! ## Crawl controller (models the nested `crawl_links`)

The link structure is abstracted as `g : String → List String`, the absolute
hrefs found on a page (the source resolves raw hrefs with `urljoin` before
filtering; navigation is modelled as succeeding, the failure branch only
appends to `errors` and skips recursion).  `visited` is the shared visited
set; `navigated` records, most recent first, each page on which the source
opens a context (`context.new_page()`), registers a collector
(`collect_js_urls`) and navigates.  Depth is a Python `int`, so `Int`. -/

/-- The crawl traversal state. -/
structure CrawlState where
  visited : List String
  navigated : List String
deriving DecidableEq

mutual

/-- Models one `crawl_links(context, current_url, max_depth, visited)` call:
return if crawling is disabled; normalize and check/insert into `visited`;
return if the depth budget is exhausted (before any page is opened); open a
page with a collector and navigate; filter the page's links to same-domain
not-yet-visited ones; recurse on each with `max_depth - 1`. -/
def crawl_links (g : String → List String) (domain : String) (crawl : Bool)
    (max_depth : Int) (current_url : String) (st : CrawlState) : CrawlState :=
  if !crawl then st
  else
    let normalized_url := normalize_url current_url
    if st.visited.contains normalized_url then st
    else
      let st1 : CrawlState := { st with visited := normalized_url :: st.visited }
      if h : max_depth ≤ 0 then st1
      else
        let st2 : CrawlState := { st1 with navigated := current_url :: st1.navigated }
        let hrefs := (g current_url).filter
          (fun href => get_domain_from_url href == domain
                       && !(st1.visited.contains (normalize_url href)))
        crawl_linklist g domain crawl (max_depth - 1) hrefs st2
termination_by (max_depth.toNat, 0)
decreasing_by
  simp_wf
  apply Prod.Lex.left
  omega

/-- The `for href in hrefs:` loop of recursive calls. -/
def crawl_linklist (g : String → List String) (domain : String) (crawl : Bool)
    (max_depth : Int) (hrefs : List String) (st : CrawlState) : CrawlState :=
  match hrefs with
  | [] => st
  | href :: rest =>
      crawl_linklist g domain crawl max_depth rest
        (crawl_links g domain crawl max_depth href st)
termination_by (max_depth.toNat, hrefs.length + 1)
decreasing_by
  · simp_wf
    apply Prod.Lex.right
    omega
  · simp_wf
    apply Prod.Lex.right
    omega

end

/-! ## Branch lemmas for the collector steps -/

/-- The origin/filter gate of `on_response` as a Boolean. -/
def response_gate (cfg : Config) (r : Response) : Bool :=
  (cfg.include_cross_origin || get_domain_from_url r.url == cfg.domain)
    && is_interesting_js r.url cfg.patterns

theorem on_response_skip_type (cfg : Config) (st : SessionState) (r : Response)
    (htype : ["script", "fetch", "xhr"].contains r.resource_type = false) :
    on_response cfg st r = st := by
  simp only [on_response, htype]
  simp

theorem on_response_skip_gate (cfg : Config) (st : SessionState) (r : Response)
    (hgate : response_gate cfg r = false) :
    on_response cfg st r = st := by
  simp only [response_gate] at hgate
  simp only [on_response, hgate]
  simp

theorem on_response_body_none (cfg : Config) (st : SessionState) (r : Response)
    (hbody : r.body = none) :
    on_response cfg st r = st := by
  simp only [on_response, hbody]
  split <;> [skip; rfl]
  split <;> rfl

theorem on_response_small (cfg : Config) (st : SessionState) (r : Response)
    (content : List Nat)
    (htype : ["script", "fetch", "xhr"].contains r.resource_type = true)
    (hgate : response_gate cfg r = true)
    (hbody : r.body = some content)
    (hsize : (content.length : Int) < cfg.min_size) :
    on_response cfg st r = { st with small := st.small + 1 } := by
  simp only [response_gate] at hgate
  simp only [on_response, htype, hgate, hbody, if_pos hsize]
  simp

theorem on_response_dup (cfg : Config) (st : SessionState) (r : Response)
    (content : List Nat)
    (htype : ["script", "fetch", "xhr"].contains r.resource_type = true)
    (hgate : response_gate cfg r = true)
    (hbody : r.body = some content)
    (hsize : ¬ (content.length : Int) < cfg.min_size)
    (hdup : st.hash_set.contains (hexdigest content) = true) :
    on_response cfg st r = { st with duplicate := st.duplicate + 1 } := by
  simp only [response_gate] at hgate
  simp only [on_response, htype, hgate, hbody, if_neg hsize, hdup]
  simp

theorem on_response_fresh (cfg : Config) (st : SessionState) (r : Response)
    (content : List Nat)
    (htype : ["script", "fetch", "xhr"].contains r.resource_type = true)
    (hgate : response_gate cfg r = true)
    (hbody : r.body = some content)
    (hsize : ¬ (content.length : Int) < cfg.min_size)
    (hnew : st.hash_set.contains (hexdigest content) = false) :
    on_response cfg st r =
      { st with hash_set := hexdigest content :: st.hash_set,
                saved := st.saved ++ [(build_filename r.url content, content)] } := by
  simp only [response_gate] at hgate
  simp only [on_response, htype, hgate, hbody, if_neg hsize, hnew]
  simp

theorem inline_step_uninteresting (cfg : Config) (st : SessionState) (s : String)
    (hint : is_interesting_inline_script s cfg.patterns = false) :
    inline_step cfg st s = { st with uninteresting := st.uninteresting + 1 } := by
  simp only [inline_step, hint]
  simp

theorem inline_step_small (cfg : Config) (st : SessionState) (s : String)
    (hint : is_interesting_inline_script s cfg.patterns = true)
    (hsize : ((utf8Encode s).length : Int) < cfg.min_size) :
    inline_step cfg st s = { st with small := st.small + 1 } := by
  simp only [inline_step, hint, if_pos hsize]
  simp

theorem inline_step_dup (cfg : Config) (st : SessionState) (s : String)
    (hint : is_interesting_inline_script s cfg.patterns = true)
    (hsize : ¬ ((utf8Encode s).length : Int) < cfg.min_size)
    (hdup : st.hash_set.contains (hexdigest (utf8Encode s)) = true) :
    inline_step cfg st s = { st with duplicate := st.duplicate + 1 } := by
  simp only [inline_step, hint, if_neg hsize, hdup]
  simp

theorem inline_step_fresh (cfg : Config) (st : SessionState) (s : String)
    (hint : is_interesting_inline_script s cfg.patterns = true)
    (hsize : ¬ ((utf8Encode s).length : Int) < cfg.min_size)
    (hnew : st.hash_set.contains (hexdigest (utf8Encode s)) = false) :
    inline_step cfg st s =
      { st with hash_set := hexdigest (utf8Encode s) :: st.hash_set,
                saved := st.saved ++
                  [(inline_filename cfg.domain (hexdigest (utf8Encode s)), utf8Encode s)] } := by
  simp only [inline_step, hint, if_neg hsize, hnew]
  simp

/-! ## Claims -/

set_option maxRecDepth 1000000

/-- **C2** — the claimed filter negation law fails on the code's configured
rules: because every `\\.` in the raw pattern strings demands a literal
backslash, the analytics-domain, CDN and minified-filename rules can never
match a real URL, so `is_interesting_js` returns `true` (keeps them) in
strict mode for the claim's representative analytics, CDN and `.min.js`
URLs; only the vendor-path rule (written `\/vendor\/`) behaves as claimed. -/
theorem c2_strict_rules_inert_on_representative_urls :
    is_interesting_js "https://www.google-analytics.com/analytics.js" UNINTERESTING_JS_STRICT = true
  ∧ is_interesting_js "https://cdn.jsdelivr.net/npm/lib.js" UNINTERESTING_JS_STRICT = true
  ∧ is_interesting_js "https://example.com/static/app.min.js" UNINTERESTING_JS_STRICT = true
  ∧ is_interesting_js "https://example.com/vendor/lib.js" UNINTERESTING_JS_STRICT = false := by
  decide

/-- **C7** counterexample — normalization does not drop a default port:
`HTTP://WWW.Example.com:80/a/` and `http://example.com/a` do not normalize
to the same string (the former keeps `:80`). -/
theorem c7_counterexample :
    normalize_url "HTTP://WWW.Example.com:80/a/" ≠ normalize_url "http://example.com/a" := by
  decide

/-- **C7** (amended) — normalization lowercases the scheme and host, strips a
leading `www.`, strips the trailing path slash and drops query and fragment,
but keeps any explicit port: without a port the claim's two URLs agree, and
with `:80` the port survives in the output. -/
theorem c7_normalize_amended :
    normalize_url "HTTP://WWW.Example.com/a/?q=1#frag" = "http://example.com/a"
  ∧ normalize_url "HTTP://WWW.Example.com/a/" = normalize_url "http://example.com/a"
  ∧ normalize_url "HTTP://WWW.Example.com:80/a/" = "http://example.com:80/a" := by
  decide

/-- **C5** — the size floor: a candidate of byte length strictly below
`min_size` that reaches the size check is never persisted, its fingerprint is
never claimed, and the `small` counter is incremented exactly once — on the
network-response path and on the inline-script path alike (the record update
leaves `hash_set`, `saved` and every other field untouched). -/
theorem c5_size_floor (cfg : Config) (st st2 : SessionState) (r : Response)
    (content : List Nat) (s : String)
    (htype : ["script", "fetch", "xhr"].contains r.resource_type = true)
    (hgate : response_gate cfg r = true)
    (hbody : r.body = some content)
    (hsize : (content.length : Int) < cfg.min_size)
    (hint : is_interesting_inline_script s cfg.patterns = true)
    (hsize2 : ((utf8Encode s).length : Int) < cfg.min_size) :
    on_response cfg st r = { st with small := st.small + 1 }
  ∧ inline_step cfg st2 s = { st2 with small := st2.small + 1 } := by
  exact ⟨on_response_small cfg st r content htype hgate hbody hsize,
         inline_step_small cfg st2 s hint hsize2⟩

/-- Witness for C5: a concrete 5-byte script response and a concrete 4-byte
inline script under `min_size = 150`. -/
theorem c5_size_floor_witness :
    on_response ⟨"example.com", UNINTERESTING_JS_STRICT, false, 150⟩ init_state
        ⟨"https://example.com/app.js", "script", some [1, 2, 3, 4, 5]⟩
      = { init_state with small := 1 }
  ∧ inline_step ⟨"example.com", UNINTERESTING_JS_STRICT, false, 150⟩ init_state "var x"
      = { init_state with small := 1 } := by
  exact c5_size_floor ⟨"example.com", UNINTERESTING_JS_STRICT, false, 150⟩ init_state init_state
    ⟨"https://example.com/app.js", "script", some [1, 2, 3, 4, 5]⟩ [1, 2, 3, 4, 5] "var x"
    (by decide) (by decide) rfl (by decide) (by decide) (by decide)

/-- **C6** counterexample — a same-origin, filter-passing script response
whose body read fails leaves the session's error list empty: the failure is
not recorded into the error list (the handler only logs it). -/
theorem c6_counterexample :
    ["script", "fetch", "xhr"].contains
        (Response.resource_type ⟨"https://example.com/app.js", "script", none⟩) = true
  ∧ response_gate ⟨"example.com", UNINTERESTING_JS_STRICT, false, 150⟩
        ⟨"https://example.com/app.js", "script", none⟩ = true
  ∧ (on_response ⟨"example.com", UNINTERESTING_JS_STRICT, false, 150⟩ init_state
        ⟨"https://example.com/app.js", "script", none⟩).errors = [] := by
  decide

/-- **C6** (amended) — when reading a response body fails, the handler
catches the failure at the point of occurrence and only logs it: the session
state — error list included — is left entirely unchanged, the exception never
propagates past the handler, and the session continues with the remaining
events exactly as if the failing response had not been delivered. -/
theorem c6_body_failure_caught (cfg : Config) (st : SessionState) (r : Response)
    (hbody : r.body = none) :
    on_response cfg st r = st
  ∧ ∀ rest : List Event,
      run_session cfg (Event.response r :: rest) st = run_session cfg rest st := by
  refine ⟨on_response_body_none cfg st r hbody, fun rest => ?_⟩
  simp only [run_session, List.foldl_cons, session_step,
    on_response_body_none cfg st r hbody]

/-- Witness for C6 (amended): a concrete failing body read in a session with
one later successful event. -/
theorem c6_body_failure_caught_witness :
    on_response ⟨"example.com", UNINTERESTING_JS_STRICT, false, 150⟩ init_state
        ⟨"https://example.com/app.js", "script", none⟩ = init_state
  ∧ ∀ rest : List Event,
      run_session ⟨"example.com", UNINTERESTING_JS_STRICT, false, 150⟩
          (Event.response ⟨"https://example.com/app.js", "script", none⟩ :: rest) init_state
        = run_session ⟨"example.com", UNINTERESTING_JS_STRICT, false, 150⟩ rest init_state := by
  exact c6_body_failure_caught ⟨"example.com", UNINTERESTING_JS_STRICT, false, 150⟩ init_state
    ⟨"https://example.com/app.js", "script", none⟩ rfl

/-! ## Frame and ledger invariants for the session fold -/

/-- Rejected or failing branches of `on_response` never touch the
`uninteresting` counter; the successful ones don't either. -/
theorem on_response_unint (cfg : Config) (st : SessionState) (r : Response) :
    (on_response cfg st r).uninteresting = st.uninteresting := by
  simp only [on_response]
  repeat' split
  all_goals rfl

/-- `inline_step` bumps `uninteresting` exactly when the body filter rejects. -/
theorem inline_step_unint (cfg : Config) (st : SessionState) (s : String) :
    (inline_step cfg st s).uninteresting
      = st.uninteresting + (if is_interesting_inline_script s cfg.patterns then 0 else 1) := by
  by_cases h : is_interesting_inline_script s cfg.patterns
  · rw [if_pos h]
    unfold inline_step
    rw [h]
    simp only [Bool.not_true, Bool.false_eq_true, if_false]
    repeat' split
    all_goals rfl
  · rw [if_neg h]
    rw [inline_step_uninteresting cfg st s (by simp_all)]

/-- The event predicate counting inline scripts the body filter rejects. -/
def rejected_inline (cfg : Config) : Event → Bool
  | Event.inl_script s => !is_interesting_inline_script s cfg.patterns
  | Event.response _ => false

/-- Over any whole session, the `uninteresting` counter advances by exactly
the number of body-filter-rejected inline scripts among the events. -/
theorem run_session_unint (cfg : Config) (events : List Event) :
    ∀ st : SessionState,
      (run_session cfg events st).uninteresting
        = st.uninteresting + events.countP (rejected_inline cfg) := by
  induction events with
  | nil => intro st; simp [run_session]
  | cons e rest ih =>
      intro st
      have hstep : run_session cfg (e :: rest) st = run_session cfg rest (session_step cfg st e) := by
        simp [run_session]
      rw [hstep, ih, List.countP_cons]
      cases e with
      | response r =>
          simp [session_step, on_response_unint, rejected_inline]
      | inl_script s =>
          simp only [session_step, inline_step_unint, rejected_inline]
          by_cases h : is_interesting_inline_script s cfg.patterns
          · simp [h]
          · simp only [h]
            simp
            omega

/-- The dedup invariant the session fold maintains: persisted fingerprints
are pairwise distinct, and every persisted fingerprint has been claimed in
the seen-hash set. -/
def LedgerInv (st : SessionState) : Prop :=
  (st.saved.map (fun p => hexdigest p.2)).Nodup
  ∧ ∀ p ∈ st.saved, hexdigest p.2 ∈ st.hash_set

theorem ledgerInv_fresh (st : SessionState) (fn : String) (content : List Nat)
    (h : LedgerInv st) (hnew : st.hash_set.contains (hexdigest content) = false) :
    LedgerInv { st with hash_set := hexdigest content :: st.hash_set,
                        saved := st.saved ++ [(fn, content)] } := by
  obtain ⟨hnd, hmem⟩ := h
  have hnotin : hexdigest content ∉ st.hash_set := by
    simpa using hnew
  constructor
  · simp only [List.map_append, List.map_cons, List.map_nil]
    rw [List.nodup_append]
    refine ⟨hnd, by simp, ?_⟩
    intro a ha
    simp only [List.mem_singleton]
    intro hb
    rcases List.mem_map.1 ha with ⟨p, hp, hpa⟩
    refine hnotin ?_
    rw [← hb, ← hpa]
    exact hmem p hp
  · intro p hp
    rcases List.mem_append.1 hp with hp1 | hp2
    · exact List.mem_cons_of_mem _ (hmem p hp1)
    · simp only [List.mem_singleton] at hp2
      subst hp2
      exact List.mem_cons_self _ _

/-- Every collector step preserves the dedup invariant. -/
theorem session_step_inv (cfg : Config) (st : SessionState) (e : Event)
    (h : LedgerInv st) : LedgerInv (session_step cfg st e) := by
  cases e with
  | response r =>
      simp only [session_step, on_response]
      repeat' split
      any_goals exact h
      all_goals exact ledgerInv_fresh st _ _ h (by simp_all)
  | inl_script s =>
      simp only [session_step, inline_step]
      repeat' split
      any_goals exact h
      all_goals exact ledgerInv_fresh st _ _ h (by simp_all)

/-- A whole session preserves the dedup invariant. -/
theorem run_session_inv (cfg : Config) (events : List Event) :
    ∀ st : SessionState, LedgerInv st → LedgerInv (run_session cfg events st) := by
  induction events with
  | nil => intro st h; simpa [run_session] using h
  | cons e rest ih =>
      intro st h
      have hstep : run_session cfg (e :: rest) st = run_session cfg rest (session_step cfg st e) := by
        simp [run_session]
      rw [hstep]
      exact ih _ (session_step_inv cfg st e h)

/-- **C1** — at-most-once persistence: over any sequence of candidate events
(responses and inline scripts, from one or many pages) a session persists
each distinct SHA-256 content fingerprint at most once (the fingerprints of
the persisted files are pairwise distinct); a candidate whose fingerprint is
already claimed is discarded with the `duplicate` counter incremented exactly
once and nothing else changed, on either path; and a first claimant passing
the earlier gates is persisted, so a distinct fingerprint that is ever
claimable yields exactly one file. -/
theorem c1_at_most_once (cfg : Config) (events : List Event)
    (st1 st2 st3 : SessionState) (r r3 : Response)
    (content content3 : List Nat) (s : String)
    (htype : ["script", "fetch", "xhr"].contains r.resource_type = true)
    (hgate : response_gate cfg r = true)
    (hbody : r.body = some content)
    (hsize : ¬ (content.length : Int) < cfg.min_size)
    (hdup : st1.hash_set.contains (hexdigest content) = true)
    (hint : is_interesting_inline_script s cfg.patterns = true)
    (hsize2 : ¬ ((utf8Encode s).length : Int) < cfg.min_size)
    (hdup2 : st2.hash_set.contains (hexdigest (utf8Encode s)) = true)
    (htype3 : ["script", "fetch", "xhr"].contains r3.resource_type = true)
    (hgate3 : response_gate cfg r3 = true)
    (hbody3 : r3.body = some content3)
    (hsize3 : ¬ (content3.length : Int) < cfg.min_size)
    (hnew3 : st3.hash_set.contains (hexdigest content3) = false) :
    ((run_session cfg events init_state).saved.map (fun p => hexdigest p.2)).Nodup
  ∧ on_response cfg st1 r = { st1 with duplicate := st1.duplicate + 1 }
  ∧ inline_step cfg st2 s = { st2 with duplicate := st2.duplicate + 1 }
  ∧ on_response cfg st3 r3 =
      { st3 with hash_set := hexdigest content3 :: st3.hash_set,
                 saved := st3.saved ++ [(build_filename r3.url content3, content3)] } := by
  refine ⟨?_, ?_, ?_, ?_⟩
  · exact (run_session_inv cfg events init_state (by simp [LedgerInv, init_state])).1
  · exact on_response_dup cfg st1 r content htype hgate hbody hsize hdup
  · exact inline_step_dup cfg st2 s hint hsize2 hdup2
  · exact on_response_fresh cfg st3 r3 content3 htype3 hgate3 hbody3 hsize3 hnew3

/-- Witness for C1: a concrete session replaying the same 3-byte script body
twice, a duplicate inline script, and a first-claimant persist, under
`min_size = 1`. -/
theorem c1_at_most_once_witness :
    ((run_session ⟨"example.com", UNINTERESTING_JS_STRICT, false, 1⟩
        [Event.response ⟨"https://example.com/app.js", "script", some [1, 2, 3]⟩,
         Event.response ⟨"https://example.com/b.js", "script", some [1, 2, 3]⟩]
        init_state).saved.map (fun p => hexdigest p.2)).Nodup
  ∧ on_response ⟨"example.com", UNINTERESTING_JS_STRICT, false, 1⟩
      { init_state with hash_set := [hexdigest [1, 2, 3]] }
      ⟨"https://example.com/app.js", "script", some [1, 2, 3]⟩
      = { init_state with hash_set := [hexdigest [1, 2, 3]], duplicate := 1 }
  ∧ inline_step ⟨"example.com", UNINTERESTING_JS_STRICT, false, 1⟩
      { init_state with hash_set := [hexdigest (utf8Encode "let a = 1;")] } "let a = 1;"
      = { init_state with hash_set := [hexdigest (utf8Encode "let a = 1;")], duplicate := 1 }
  ∧ on_response ⟨"example.com", UNINTERESTING_JS_STRICT, false, 1⟩ init_state
      ⟨"https://example.com/app.js", "script", some [1, 2, 3]⟩
      = { init_state with hash_set := [hexdigest [1, 2, 3]],
                          saved := [(build_filename "https://example.com/app.js" [1, 2, 3], [1, 2, 3])] } := by
  exact c1_at_most_once ⟨"example.com", UNINTERESTING_JS_STRICT, false, 1⟩
    [Event.response ⟨"https://example.com/app.js", "script", some [1, 2, 3]⟩,
     Event.response ⟨"https://example.com/b.js", "script", some [1, 2, 3]⟩]
    { init_state with hash_set := [hexdigest [1, 2, 3]] }
    { init_state with hash_set := [hexdigest (utf8Encode "let a = 1;")] }
    init_state
    ⟨"https://example.com/app.js", "script", some [1, 2, 3]⟩
    ⟨"https://example.com/app.js", "script", some [1, 2, 3]⟩
    [1, 2, 3] [1, 2, 3] "let a = 1;"
    (by decide) (by decide) rfl (by decide) (by decide) (by decide) (by decide)
    (by decide) (by decide) (by decide) rfl (by decide) (by decide)

/-- **C10** (implicit) — a response rejected by the resource-kind gate or by
the origin/filter gate is discarded silently: the whole session state,
counters and seen-hash set included, is unchanged; consequently after any
session the `uninteresting` counter equals exactly the number of inline
scripts the body filter rejected. -/
theorem c10_rejected_response_frame (cfg : Config) (events : List Event)
    (st : SessionState) (r : Response) :
    (["script", "fetch", "xhr"].contains r.resource_type = false → on_response cfg st r = st)
  ∧ (response_gate cfg r = false → on_response cfg st r = st)
  ∧ (run_session cfg events init_state).uninteresting
      = events.countP (rejected_inline cfg) := by
  refine ⟨on_response_skip_type cfg st r, on_response_skip_gate cfg st r, ?_⟩
  rw [run_session_unint cfg events init_state]
  simp [init_state]

/-- Witness for C10: a cross-origin response leaves the state unchanged, and
a session with one rejected inline script ends with `uninteresting = 1`. -/
theorem c10_rejected_response_frame_witness :
    on_response ⟨"example.com", UNINTERESTING_JS_STRICT, false, 150⟩ init_state
        ⟨"https://ads.example.net/track.js", "script", some [1, 2, 3]⟩ = init_state
  ∧ (run_session ⟨"example.com", UNINTERESTING_JS_STRICT, false, 150⟩
        [Event.inl_script "import x from '/vendor/x'"] init_state).uninteresting = 1 := by
  have h := c10_rejected_response_frame ⟨"example.com", UNINTERESTING_JS_STRICT, false, 150⟩
    [Event.inl_script "import x from '/vendor/x'"] init_state
    ⟨"https://ads.example.net/track.js", "script", some [1, 2, 3]⟩
  refine ⟨h.2.1 (by decide), ?_⟩
  rw [h.2.2]
  decide

/-! ## Crawl invariants -/

/-- The traversal invariant: visited entries are pairwise distinct, no two
navigated pages share a normalized URL, and every navigated page's normalized
URL is in the visited set. -/
def CrawlInv (st : CrawlState) : Prop :=
  st.visited.Nodup
  ∧ (st.navigated.map normalize_url).Nodup
  ∧ ∀ v ∈ st.navigated, normalize_url v ∈ st.visited

/-- How a crawl call grows the state: both lists only gain a prefix, and every
newly navigated page was not visited (by normalized URL) at call entry. -/
def CrawlExtends (st st' : CrawlState) : Prop :=
  (∃ nv, st'.visited = nv ++ st.visited)
  ∧ (∃ nn, st'.navigated = nn ++ st.navigated ∧ ∀ v ∈ nn, normalize_url v ∉ st.visited)

theorem crawlExtends_refl (st : CrawlState) : CrawlExtends st st :=
  ⟨⟨[], rfl⟩, ⟨[], rfl, by simp⟩⟩

theorem crawlExtends_trans (s1 s2 s3 : CrawlState)
    (h12 : CrawlExtends s1 s2) (h23 : CrawlExtends s2 s3) : CrawlExtends s1 s3 := by
  obtain ⟨⟨nv, hv⟩, ⟨nn, hn, hf⟩⟩ := h12
  obtain ⟨⟨nv', hv'⟩, ⟨nn', hn', hf'⟩⟩ := h23
  refine ⟨⟨nv' ++ nv, by rw [hv', hv, List.append_assoc]⟩,
          ⟨nn' ++ nn, by rw [hn', hn, List.append_assoc], ?_⟩⟩
  intro v hvmem
  rcases List.mem_append.1 hvmem with hm | hm
  · intro hin
    exact hf' v hm (by rw [hv]; exact List.mem_append_right nv hin)
  · exact hf v hm

/-- The `for href in hrefs` loop preserves the invariant and the extension
property whenever each single call does. -/
theorem crawl_linklist_good (g : String → List String) (domain : String) (en : Bool)
    (d : Int)
    (hone : ∀ (u : String) (st : CrawlState), CrawlInv st →
      CrawlInv (crawl_links g domain en d u st)
      ∧ CrawlExtends st (crawl_links g domain en d u st)) :
    ∀ (urls : List String) (st : CrawlState), CrawlInv st →
      CrawlInv (crawl_linklist g domain en d urls st)
      ∧ CrawlExtends st (crawl_linklist g domain en d urls st) := by
  intro urls
  induction urls with
  | nil =>
      intro st h
      rw [crawl_linklist]
      exact ⟨h, crawlExtends_refl st⟩
  | cons u rest ih =>
      intro st h
      rw [crawl_linklist]
      have h1 := hone u st h
      have h2 := ih (crawl_links g domain en d u st) h1.1
      exact ⟨h2.1, crawlExtends_trans _ _ _ h1.2 h2.2⟩

/-- Main crawl induction: every call preserves the invariant and only extends
the state with fresh pages (induction on an upper bound of the depth). -/
theorem crawl_links_good (g : String → List String) (domain : String) (en : Bool) :
    ∀ (n : Nat) (d : Int), d.toNat < n → ∀ (u : String) (st : CrawlState), CrawlInv st →
      CrawlInv (crawl_links g domain en d u st)
      ∧ CrawlExtends st (crawl_links g domain en d u st) := by
  intro n
  induction n with
  | zero => intro d hd; omega
  | succ n ih =>
      intro d hd u st hst
      simp only [crawl_links]
      split
      · exact ⟨hst, crawlExtends_refl st⟩
      split
      · exact ⟨hst, crawlExtends_refl st⟩
      rename_i hvis
      have hnotin : normalize_url u ∉ st.visited := by
        simpa using hvis
      split
      · refine ⟨⟨List.nodup_cons.2 ⟨hnotin, hst.1⟩, hst.2.1,
                 fun v hv => List.mem_cons_of_mem _ (hst.2.2 v hv)⟩,
                ⟨⟨[normalize_url u], rfl⟩, ⟨[], rfl, by simp⟩⟩⟩
      · rename_i hd0
        have hstep : CrawlInv ⟨normalize_url u :: st.visited, u :: st.navigated⟩ := by
          refine ⟨List.nodup_cons.2 ⟨hnotin, hst.1⟩, ?_, ?_⟩
          · simp only [List.map_cons]
            refine List.nodup_cons.2 ⟨?_, hst.2.1⟩
            intro hmem
            rcases List.mem_map.1 hmem with ⟨v, hv, hveq⟩
            exact hnotin (hveq ▸ hst.2.2 v hv)
          · intro v hv
            rcases List.mem_cons.1 hv with hv1 | hv2
            · subst hv1; exact List.mem_cons_self _ _
            · exact List.mem_cons_of_mem _ (hst.2.2 v hv2)
        have hext : CrawlExtends st ⟨normalize_url u :: st.visited, u :: st.navigated⟩ :=
          ⟨⟨[normalize_url u], rfl⟩, ⟨[u], rfl, by simpa using hnotin⟩⟩
        have hone : ∀ (u' : String) (st' : CrawlState), CrawlInv st' →
            CrawlInv (crawl_links g domain en (d - 1) u' st')
            ∧ CrawlExtends st' (crawl_links g domain en (d - 1) u' st') := by
          intro u' st' hst'
          exact ih (d - 1) (by omega) u' st' hst'
        have hlist := crawl_linklist_good g domain en (d - 1) hone
          ((g u).filter (fun href => get_domain_from_url href == domain
             && !((normalize_url u :: st.visited).contains (normalize_url href))))
          ⟨normalize_url u :: st.visited, u :: st.navigated⟩ hstep
        exact ⟨hlist.1, crawlExtends_trans _ _ _ hext hlist.2⟩

/-- A three-page same-domain cycle A→B→C→A used by the crawl scenarios. -/
def cycleGraph : String → List String := fun u =>
  if u == "http://site.com/a" then ["http://site.com/b"]
  else if u == "http://site.com/b" then ["http://site.com/c"]
  else if u == "http://site.com/c" then ["http://site.com/a"]
  else []

/-- The depth-2 crawl of the cycle starting at A from a fresh state. -/
def cycleCrawl : CrawlState :=
  crawl_links cycleGraph "site.com" true 2 "http://site.com/a" ⟨[], []⟩

/-- The concrete value of the depth-2 cycle crawl: all three pages are
visited; a page context with a collector is opened only on A and B. -/
theorem cycleCrawl_eq :
    cycleCrawl = ⟨[normalize_url "http://site.com/c", normalize_url "http://site.com/b",
                   normalize_url "http://site.com/a"],
                  ["http://site.com/b", "http://site.com/a"]⟩ := by
  simp +decide [cycleCrawl, crawl_links, crawl_linklist, cycleGraph]

/-- **C4** — visited-set termination: the crawl (a total function of the
depth-bounded recursion, so traversal always terminates) keeps the visited
set duplicate-free, never navigates two pages with the same normalized URL,
and never navigates to any URL whose normalized form was already in the
visited set when the call was entered. -/
theorem c4_visited_once (g : String → List String) (domain : String) (en : Bool)
    (d : Int) (u : String) (st : CrawlState) (h : CrawlInv st) :
    CrawlInv (crawl_links g domain en d u st)
  ∧ ∀ w : String, normalize_url w ∈ st.visited →
      (crawl_links g domain en d u st).navigated.count w = st.navigated.count w := by
  have hg := crawl_links_good g domain en (d.toNat + 1) d (by omega) u st h
  refine ⟨hg.1, fun w hw => ?_⟩
  obtain ⟨nn, hnav, hfresh⟩ := hg.2.2
  rw [hnav, List.count_append]
  have hz : nn.count w = 0 := List.count_eq_zero.2 (fun hmem => hfresh w hmem hw)
  omega

/-- Witness for C4: the cyclic three-page graph at depth 2, starting from a
state that has already visited a fourth page Z; Z is never navigated. -/
theorem c4_visited_once_witness :
    CrawlInv (crawl_links cycleGraph "site.com" true 2 "http://site.com/a"
      ⟨[normalize_url "http://site.com/z"], []⟩)
  ∧ ∀ w : String, normalize_url w ∈ [normalize_url "http://site.com/z"] →
      (crawl_links cycleGraph "site.com" true 2 "http://site.com/a"
        ⟨[normalize_url "http://site.com/z"], []⟩).navigated.count w
        = List.count w ([] : List String) := by
  exact c4_visited_once cycleGraph "site.com" true 2 "http://site.com/a"
    ⟨[normalize_url "http://site.com/z"], []⟩ (by simp [CrawlInv])

/-- **C3** counterexample — in the depth-2 crawl of the cycle A→B→C→A, page C
is inserted into the visited set, but no page context or collector is ever
opened for it: the claim's "a page is still opened with an Asset Collector
registered" fails for depth-exhausted branches. -/
theorem c3_counterexample :
    cycleCrawl.visited.length = 3
  ∧ normalize_url "http://site.com/c" ∈ cycleCrawl.visited
  ∧ "http://site.com/c" ∉ cycleCrawl.navigated := by
  rw [cycleCrawl_eq]
  decide

/-- **C3** (amended) — a crawl branch entered with `remainingDepth ≤ 0` whose
normalized URL is unvisited still inserts the URL into the visited set, but
terminates before opening a page or registering a collector (only deeper
branches get one); concretely, the depth-2 crawl over the cycle A→B→C→A
visits exactly {A, B, C} once each and registers collectors on A and B only. -/
theorem c3_depth_zero_amended (g : String → List String) (domain : String)
    (d : Int) (u : String) (st : CrawlState)
    (hd : d ≤ 0) (hv : st.visited.contains (normalize_url u) = false) :
    crawl_links g domain true d u st = { st with visited := normalize_url u :: st.visited }
  ∧ cycleCrawl.visited = [normalize_url "http://site.com/c", normalize_url "http://site.com/b",
                          normalize_url "http://site.com/a"]
  ∧ cycleCrawl.navigated = ["http://site.com/b", "http://site.com/a"] := by
  refine ⟨?_, by rw [cycleCrawl_eq], by rw [cycleCrawl_eq]⟩
  simp only [crawl_links, Bool.not_true, Bool.false_eq_true, if_false, hv, dif_pos hd]

/-- Witness for C3 (amended): a fresh depth-0 branch on page A only marks A
visited. -/
theorem c3_depth_zero_amended_witness :
    crawl_links cycleGraph "site.com" true 0 "http://site.com/a" ⟨[], []⟩
      = ⟨[normalize_url "http://site.com/a"], []⟩
  ∧ cycleCrawl.visited = [normalize_url "http://site.com/c", normalize_url "http://site.com/b",
                          normalize_url "http://site.com/a"]
  ∧ cycleCrawl.navigated = ["http://site.com/b", "http://site.com/a"] := by
  exact c3_depth_zero_amended cycleGraph "site.com" 0 "http://site.com/a" ⟨[], []⟩
    (by omega) rfl

/-! ## Hex digest facts -/

theorem hexChar_mem (n : Nat) : hexChar n ∈ hexAlphabet := by
  unfold hexChar
  rcases Nat.lt_or_ge n 16 with h | h
  · interval_cases n <;> decide
  · rw [List.getD_eq_default]
    · decide
    · simp [hexAlphabet]
      omega

theorem hexOfBytes_mem (l : List Nat) : ∀ c ∈ hexOfBytes l, c ∈ hexAlphabet := by
  induction l with
  | nil => simp [hexOfBytes]
  | cons b rest ih =>
      intro c hc
      have hstep : hexOfBytes (b :: rest)
          = hexChar (b / 16 % 16) :: hexChar (b % 16) :: hexOfBytes rest := rfl
      rw [hstep] at hc
      rcases List.mem_cons.1 hc with rfl | hc2
      · exact hexChar_mem _
      rcases List.mem_cons.1 hc2 with rfl | hc3
      · exact hexChar_mem _
      · exact ih c hc3

theorem hexdigest_mem (content : List Nat) :
    ∀ c ∈ (hexdigest content).data, c ∈ hexAlphabet := by
  simpa [hexdigest] using hexOfBytes_mem (sha256 content)

theorem hexOfBytes_length (l : List Nat) : (hexOfBytes l).length = 2 * l.length := by
  induction l with
  | nil => rfl
  | cons b rest ih =>
      have hstep : hexOfBytes (b :: rest)
          = hexChar (b / 16 % 16) :: hexChar (b % 16) :: hexOfBytes rest := rfl
      rw [hstep]
      simp [ih]
      omega

theorem sha256_length (msg : List Nat) : (sha256 msg).length = 32 := by
  simp [sha256, be4]

theorem hexdigest_length (content : List Nat) : (hexdigest content).data.length = 64 := by
  simp [hexdigest, hexOfBytes_length, sha256_length]

theorem hexAlphabet_not_forbidden :
    ∀ c ∈ hexAlphabet, c ∉ forbiddenFilenameChars := by
  decide

/-- **C8** counterexample — with a session domain carrying an explicit port
(`example.com:8080`, as `get_domain_from_url` returns for such a target), the
inline path persists exactly one file and its name contains `:`, a
filesystem-forbidden character: the inline filename is not sanitized. -/
theorem c8_counterexample :
    Config.domain ⟨get_domain_from_url "http://example.com:8080/", UNINTERESTING_JS_STRICT, false, 1⟩
      = "example.com:8080"
  ∧ ((inline_step ⟨get_domain_from_url "http://example.com:8080/", UNINTERESTING_JS_STRICT, false, 1⟩
        init_state "let secret = 12345;").saved.map Prod.fst).length = 1
  ∧ ∀ fn ∈ (inline_step ⟨get_domain_from_url "http://example.com:8080/", UNINTERESTING_JS_STRICT, false, 1⟩
        init_state "let secret = 12345;").saved.map Prod.fst,
      ':' ∈ fn.data := by
  decide

/-- **C8** (amended) — a persisted inline asset's filename is the *raw*
(unsanitized) session domain, the literal `inline`, and the first 8 hex
characters of the content fingerprint, joined with underscores and ending in
`.js`; it is free of filesystem-forbidden characters exactly when the domain
itself is (the hex fingerprint part always is), so a domain with an explicit
port breaks the contract while an ordinary host keeps it. -/
theorem c8_inline_filename_amended (domain : String) (content : List Nat)
    (hd : ∀ c ∈ domain.data, c ∉ forbiddenFilenameChars) :
    inline_filename domain (hexdigest content)
      = domain ++ ("_inline_" ++ (strSlice8 (hexdigest content) ++ ".js"))
  ∧ (inline_filename domain (hexdigest content)).data.length = domain.data.length + 19
  ∧ ∀ c ∈ (inline_filename domain (hexdigest content)).data, c ∉ forbiddenFilenameChars := by
  have h64 : (hexdigest content).length = 64 := hexdigest_length content
  refine ⟨rfl, ?_, ?_⟩
  · simp [inline_filename, String.data_append, strSlice8, h64]
  · intro c hc
    have hlit8 : ∀ x ∈ "_inline_".data, x ∉ forbiddenFilenameChars := by decide
    have hjs3 : ∀ x ∈ ".js".data, x ∉ forbiddenFilenameChars := by decide
    simp only [inline_filename, String.data_append, List.mem_append, strSlice8] at hc
    rcases hc with hdom | hlit | hhash | hjs
    · exact hd c hdom
    · exact hlit8 c hlit
    · exact hexAlphabet_not_forbidden c
        (hexdigest_mem content c (List.mem_of_mem_take hhash))
    · exact hjs3 c hjs

/-- Witness for C8 (amended): the ordinary domain `example.com` with a
one-byte inline body. -/
theorem c8_inline_filename_amended_witness :
    inline_filename "example.com" (hexdigest [97])
      = "example.com" ++ ("_inline_" ++ (strSlice8 (hexdigest [97]) ++ ".js"))
  ∧ (inline_filename "example.com" (hexdigest [97])).data.length = "example.com".data.length + 19
  ∧ ∀ c ∈ (inline_filename "example.com" (hexdigest [97])).data, c ∉ forbiddenFilenameChars := by
  exact c8_inline_filename_amended "example.com" [97] (by decide)

/-! ## The same-origin scenario -/

/-- The scenario configuration: target `https://example.com`, strict mode,
cross-origin disabled, minimum size 500 (below the 600-byte bodies). -/
def c9cfg : Config :=
  ⟨get_domain_from_url "https://example.com", UNINTERESTING_JS_STRICT, false, 500⟩

/-- The 600-byte body of `app.js`. -/
def appContent : List Nat := List.replicate 600 97

/-- The same-origin script response. -/
def appResponse : Response := ⟨"https://example.com/app.js", "script", some appContent⟩

/-- The cross-origin script response, with an arbitrary body-read outcome. -/
def adsResponse (b : Option (List Nat)) : Response :=
  ⟨"https://ads.example.net/track.js", "script", b⟩

/-- **C9** — same-origin scenario: with cross-origin disabled, processing the
600-byte `app.js` response and the `ads.example.net` response persists exactly
one file, named `example.com_app_` + the first 8 hex characters of the
content's SHA-256 digest + `.js`; the cross-origin response leaves the state
untouched for *every* body value — including a failing read — i.e. it is
discarded before any body read, and the 8 fingerprint characters are hex. -/
theorem c9_same_origin_scenario :
    (∀ b : Option (List Nat),
      (run_session c9cfg [Event.response appResponse, Event.response (adsResponse b)]
          init_state).saved
        = [("example.com_app_" ++ (strSlice8 (hexdigest appContent) ++ ".js"), appContent)])
  ∧ (∀ (st : SessionState) (b : Option (List Nat)), on_response c9cfg st (adsResponse b) = st)
  ∧ (strSlice8 (hexdigest appContent)).data.length = 8
  ∧ ∀ c ∈ (strSlice8 (hexdigest appContent)).data, c ∈ hexAlphabet := by
  have hads : ∀ (st : SessionState) (b : Option (List Nat)),
      on_response c9cfg st (adsResponse b) = st := by
    intro st b
    exact on_response_skip_gate c9cfg st (adsResponse b) rfl
  have happ : ∀ s : String,
      "example.com" ++ ("_" ++ ("app" ++ ("_" ++ s))) = "example.com_app_" ++ s := by
    intro s
    cases s
    rfl
  have hbf : build_filename "https://example.com/app.js" appContent
      = "example.com" ++ ("_" ++ ("app" ++ ("_" ++ (strSlice8 (hexdigest appContent) ++ ".js")))) :=
    rfl
  have h1 : on_response c9cfg init_state appResponse
      = { init_state with
            hash_set := [hexdigest appContent],
            saved := [(build_filename "https://example.com/app.js" appContent, appContent)] } := by
    have hfresh := on_response_fresh c9cfg init_state appResponse appContent
      (by decide) (by decide) rfl (by norm_num [appContent, c9cfg]) rfl
    simpa [init_state] using hfresh
  refine ⟨?_, hads, ?_, ?_⟩
  · intro b
    have hrun : run_session c9cfg [Event.response appResponse, Event.response (adsResponse b)]
        init_state
        = on_response c9cfg (on_response c9cfg init_state appResponse) (adsResponse b) := by
      simp [run_session, session_step]
    rw [hrun, h1, hads, hbf, happ]
  · have h64 : (hexdigest appContent).length = 64 := hexdigest_length appContent
    simp [strSlice8, h64]
  · intro c hc
    exact hexdigest_mem appContent c (List.mem_of_mem_take hc)
